import Mathlib

/-! # h2tun server: a shallow embedding of `internal/app/h2tun/server.go`

The file embeds the two methods of `Server`:

* `Server.Serve` — mode selection (TLS or h2c), construction of the request
  router, the listener call and the way its error is handed back;
* `Server.ServeHTTP` — the tunnel entry point: full-duplex accept, backend
  dial, the two copy goroutines and the wait group the handler blocks on.

Library calls (`http.ServeMux`, `io.Copy`, `sync.WaitGroup`, the listener) are
embedded after their Go implementation and documentation; their outcomes that
depend on the network are inputs of the model.
-/

namespace H2tun

/-! ## Configuration -/

/-- The `Server` struct (the logger carries no behaviour and is left out). -/
structure Server where
  FromAddr : String
  ToAddr : String
  Path : String
  KeyFile : String
  CertFile : String
  WebRoot : String
  deriving DecidableEq, Repr

/-- Line 29: `serveTLS := (p.KeyFile != "" && p.CertFile != "")`. -/
def serveTLS (p : Server) : Bool :=
  p.KeyFile != "" && p.CertFile != ""

/-! ## The request router (`http.ServeMux`) -/

/-- The handlers a request can end at: the tunnel entry point (`p` itself,
registered under `p.Path`), `http.FileServer(http.Dir(root))`, and the mux's
own `NotFoundHandler`. -/
inductive Handler where
  | tunnel
  | fileServer (root : String)
  | notFound
  deriving DecidableEq, Repr

/-- One registration of the mux: `muxEntry{h, pattern}`. -/
structure muxEntry where
  h : Handler
  pattern : String
  deriving DecidableEq, Repr

/-- The `http.ServeMux` fields: `m` (pattern to entry), `es` (the entries whose
pattern ends in a slash, longest first) and `hosts` (some pattern names a
host). Patterns are rooted paths (`/favicon.ico`), rooted subtrees
(`/images/`), or either led by a host name. -/
structure ServeMux where
  m : List muxEntry
  es : List muxEntry
  hosts : Bool
  deriving DecidableEq, Repr

/-- The function `http.NewServeMux`. -/
def NewServeMux : ServeMux := { m := [], es := [], hosts := false }

/-- Map lookup `mux.m[pattern]`. -/
def ServeMux.lookup (mux : ServeMux) (pattern : String) : Option muxEntry :=
  mux.m.find? (fun e => e.pattern == pattern)

/-- The function `appendSorted`: insert before the first entry with a strictly
shorter pattern (`len` counts bytes). -/
def appendSorted : List muxEntry → muxEntry → List muxEntry
  | [], e => [e]
  | x :: xs, e =>
    if x.pattern.utf8ByteSize < e.pattern.utf8ByteSize then e :: x :: xs
    else x :: appendSorted xs e

/-- The test `pattern[len(pattern)-1] == '/'`. -/
def endsInSlash (pattern : String) : Bool :=
  pattern.data.getLast? == some '/'

/-- The test `pattern[0] != '/'`. -/
def namesHost (pattern : String) : Bool :=
  pattern.data.head? != some '/'

/-- Method `ServeMux.Handle`; `none` stands for its panics (empty pattern,
pattern registered twice). -/
def ServeMux.Handle (mux : ServeMux) (pattern : String) (h : Handler) : Option ServeMux :=
  if pattern = "" then none
  else if (mux.lookup pattern).isSome then none
  else
    let e : muxEntry := { h := h, pattern := pattern }
    some { m := e :: mux.m
           es := if endsInSlash pattern then appendSorted mux.es e else mux.es
           hosts := mux.hosts || namesHost pattern }

/-- Method `ServeMux.match`: an exact entry first, then the longest registered
subtree pattern that is a prefix of the path. -/
def ServeMux.matchPath (mux : ServeMux) (path : String) : Option muxEntry :=
  match mux.lookup path with
  | some e => some e
  | none => mux.es.find? (fun e => e.pattern.data.isPrefixOf path.data)

/-- Method `ServeMux.handler`, on a host and a canonical path: host-specific
patterns first, then generic ones, then `NotFoundHandler`. -/
def ServeMux.handler (mux : ServeMux) (host path : String) : Handler :=
  let h := if mux.hosts then mux.matchPath (host ++ path) else none
  let h := match h with
    | some e => some e
    | none => mux.matchPath path
  match h with
  | some e => e.h
  | none => Handler.notFound

/-- Lines 42-47 of `Serve`: the router. `none` when a `mux.Handle` panics. -/
def router (p : Server) : Option ServeMux :=
  match NewServeMux.Handle p.Path Handler.tunnel with
  | none => none
  | some mux =>
    if p.WebRoot != "" then mux.Handle "/" (Handler.fileServer p.WebRoot)
    else some mux

/-! ## `Server.Serve` -/

/-- The value assigned to `handler` at lines 51-57. -/
inductive RootHandler where
  | direct (mux : ServeMux)
  | h2c (mux : ServeMux)
  deriving DecidableEq, Repr

/-- The listener call of lines 76-80. -/
inductive ListenCall where
  | ListenAndServeTLS (certFile keyFile : String)
  | ListenAndServe
  deriving DecidableEq, Repr

/-- The errors a listener call hands back: `http.ErrServerClosed` after
`Shutdown`/`Close`, anything else otherwise. -/
inductive ListenError where
  | ErrServerClosed
  | other (msg : String)
  deriving DecidableEq, Repr

/-- Lines 51-57: the handler given to `http.Server`. -/
def rootHandler (p : Server) (mux : ServeMux) : RootHandler :=
  if serveTLS p then RootHandler.direct mux else RootHandler.h2c mux

/-- Lines 76-80: which listener method is called. -/
def listenCall (p : Server) : ListenCall :=
  if serveTLS p then ListenCall.ListenAndServeTLS p.CertFile p.KeyFile
  else ListenCall.ListenAndServe

/-- A statement of the goroutine of lines 66-74: wait for `ctx.Done()`, call
`srv.Shutdown` (from the call on the listener stops and its method returns
`http.ErrServerClosed`), come back from `srv.Shutdown` (connections drained,
or the one second of line 70 over), and the deferred `wg.Done()`. -/
inductive WatcherStmt where
  | awaitDone
  | ShutdownCall
  | ShutdownReturn
  | wgDone
  deriving DecidableEq, Repr

/-- A statement of `Serve` from line 76 on: the listener call of lines 76-80,
the check of lines 81-83, `wg.Wait()` of line 85 (line 87 returns). -/
inductive MainStmt where
  | listen
  | checkErr
  | wgWait
  deriving DecidableEq, Repr

/-- The state of `Serve` from line 76 on.

* `wg`: the counter of the wait group;
* `main`: the statements `Serve` has still to run, `err` its named result,
  `result` the value it has returned once it has;
* `watcher`: the statements the goroutine of lines 66-74 has still to run;
* `ctxDone`: the context is cancelled;
* `stopped`: the listener has stopped serving, with the error its method
  returns. -/
structure Lifecycle where
  wg : Nat
  main : List MainStmt
  err : Option ListenError
  result : Option (Option ListenError)
  watcher : List WatcherStmt
  ctxDone : Bool
  stopped : Option ListenError
  deriving DecidableEq, Repr

/-- The state at line 76: `wg.Add(1)` done, the goroutine started. -/
def Lifecycle.init : Lifecycle :=
  { wg := 1, main := [MainStmt.listen, MainStmt.checkErr, MainStmt.wgWait],
    err := none, result := none,
    watcher := [WatcherStmt.awaitDone, WatcherStmt.ShutdownCall, WatcherStmt.ShutdownReturn,
      WatcherStmt.wgDone],
    ctxDone := false, stopped := none }

/-- What can happen next while `Serve` runs: the context is cancelled, the
listener stops by itself (it could not start, or it broke), `Serve` or the
goroutine runs its next statement. -/
inductive LifecycleAction where
  | cancel
  | listenerFails (msg : String)
  | main
  | watcher
  deriving DecidableEq, Repr

/-- One step of `Serve` and its goroutine; `none` when the action is not
enabled. The listener call comes back only once the listener has stopped, with
the error it stopped with; `wg.Wait()` is enabled only when the counter
is 0. -/
def Lifecycle.step (s : Lifecycle) : LifecycleAction → Option Lifecycle
  | LifecycleAction.cancel => some { s with ctxDone := true }
  | LifecycleAction.listenerFails msg =>
    match s.stopped with
    | some _ => none
    | none => some { s with stopped := some (ListenError.other msg) }
  | LifecycleAction.watcher =>
    match s.watcher with
    | WatcherStmt.awaitDone :: rest =>
      if s.ctxDone then some { s with watcher := rest } else none
    | WatcherStmt.ShutdownCall :: rest =>
      match s.stopped with
      | some _ => some { s with watcher := rest }
      | none => some { s with watcher := rest, stopped := some ListenError.ErrServerClosed }
    | WatcherStmt.ShutdownReturn :: rest => some { s with watcher := rest }
    | WatcherStmt.wgDone :: rest => some { s with watcher := rest, wg := s.wg - 1 }
    | [] => none
  | LifecycleAction.main =>
    match s.main with
    | MainStmt.listen :: rest =>
      match s.stopped with
      | some e => some { s with err := some e, main := rest }
      | none => none
    | MainStmt.checkErr :: rest =>
      match s.err with
      | some e => some { s with main := [], result := some (some e) }
      | none => some { s with main := rest }
    | MainStmt.wgWait :: rest => if s.wg = 0 then some { s with main := rest } else none
    | [] =>
      match s.result with
      | some _ => none
      | none => some { s with result := some s.err }

/-- Run a schedule of actions; `none` when one of them is not enabled. -/
def Lifecycle.exec (s : Lifecycle) : List LifecycleAction → Option Lifecycle
  | [] => some s
  | a :: as =>
    match s.step a with
    | some t => t.exec as
    | none => none

/-- The states `Serve` can be in: those some schedule leads to. -/
def Lifecycle.Reachable (s : Lifecycle) : Prop :=
  ∃ as : List LifecycleAction, Lifecycle.init.exec as = some s

/-- The invariant of `Serve`: it waits for the listener, or holds the
listener's non-nil error, or has returned that error. -/
def Lifecycle.Inv (s : Lifecycle) : Prop :=
  (s.main = [MainStmt.listen, MainStmt.checkErr, MainStmt.wgWait] ∧ s.err = none ∧
    s.result = none) ∨
  (s.main = [MainStmt.checkErr, MainStmt.wgWait] ∧ s.err ≠ none ∧ s.result = none) ∨
  (s.main = [] ∧ s.err ≠ none ∧ s.result = some s.err)

/-- The `http.Server` value of lines 59-62. -/
structure HttpServer where
  Addr : String
  Handler : RootHandler
  deriving DecidableEq, Repr

/-- How `Serve` leaves lines 29-75: a `mux.Handle` has panicked, or it goes on
to the listener call with the server value, the listener method and the
state of line 76. -/
inductive ServeEntry where
  | panicked
  | serving (srv : HttpServer) (call : ListenCall) (l : Lifecycle)
  deriving DecidableEq, Repr

/-- Lines 29-75 of `Server.Serve`. -/
def Serve (p : Server) : ServeEntry :=
  match router p with
  | none => ServeEntry.panicked
  | some mux =>
    ServeEntry.serving { Addr := p.FromAddr, Handler := rootHandler p mux } (listenCall p)
      Lifecycle.init

/-! ## `io.Copy` -/

/-- Bytes are kept abstract; only their order and number matter. -/
abbrev Byte := Nat

/-- A non-nil error of `Read`: `io.EOF` or anything else. -/
inductive ReadErr where
  | EOF
  | other (msg : String)
  deriving DecidableEq, Repr

/-- One call `src.Read(buf)`: the `nr = data.length` bytes put into the buffer
and the error `er`. -/
structure ReadResult where
  data : List Byte
  er : Option ReadErr
  deriving DecidableEq, Repr

/-- One call `dst.Write(buf[0:nr])`: the count `nw` and the error `ew`. -/
structure WriteResult where
  nw : Int
  ew : Option String
  deriving DecidableEq, Repr

/-- The error `io.Copy` returns. -/
inductive CopyErr where
  | read (msg : String)
  | write (msg : String)
  | errInvalidWrite
  | ErrShortWrite
  deriving DecidableEq, Repr

/-- Result of `io.Copy`: the two return values, and `out`, the bytes that
reached the destination. -/
structure CopyResult where
  written : Int
  err : Option CopyErr
  out : List Byte
  deriving DecidableEq, Repr

/-- The answer of the destination to a write of `nr` bytes: the next scripted
answer, or a complete write when the script is used up. -/
def nextWrite (nr : Nat) : List WriteResult → WriteResult × List WriteResult
  | [] => ({ nw := nr, ew := none }, [])
  | w :: ws => (w, ws)

/-- The loop of `io.Copy` (`copyBuffer`), run against the successive answers
of `src.Read` and `dst.Write`. A source whose script is used up answers
`0, io.EOF`. Between a TCP connection and an HTTP/2 stream there is no
`WriteTo`/`ReadFrom` short cut other than this loop. The destination takes the
first `nw` bytes of what it is given. -/
def copyBuffer : List ReadResult → List WriteResult → Int → List Byte → CopyResult
  | [], _, written, out => { written := written, err := none, out := out }
  | r :: rs, ws, written, out =>
    let nr : Int := r.data.length
    if 0 < nr then
      let w := (nextWrite r.data.length ws).1
      let ws1 := (nextWrite r.data.length ws).2
      let invalid : Bool := decide (w.nw < 0) || decide (nr < w.nw)
      let nw : Int := if invalid then 0 else w.nw
      let ew : Option CopyErr :=
        if invalid then
          (match w.ew with
           | none => some CopyErr.errInvalidWrite
           | some m => some (CopyErr.write m))
        else w.ew.map CopyErr.write
      let written1 := written + nw
      let out1 := out ++ r.data.take w.nw.toNat
      match ew with
      | some e => { written := written1, err := some e, out := out1 }
      | none =>
        if nr ≠ nw then { written := written1, err := some CopyErr.ErrShortWrite, out := out1 }
        else
          match r.er with
          | some ReadErr.EOF => { written := written1, err := none, out := out1 }
          | some (ReadErr.other m) => { written := written1, err := some (CopyErr.read m), out := out1 }
          | none => copyBuffer rs ws1 written1 out1
    else
      match r.er with
      | some ReadErr.EOF => { written := written, err := none, out := out }
      | some (ReadErr.other m) => { written := written, err := some (CopyErr.read m), out := out }
      | none => copyBuffer rs ws written out

/-- The call `io.Copy(dst, src)`. -/
def Copy (src : List ReadResult) (dst : List WriteResult) : CopyResult :=
  copyBuffer src dst 0 []

/-- The byte sequence the source delivers: the data of its reads up to and
including the first read that reports an error or end-of-stream. -/
def delivered : List ReadResult → List Byte
  | [] => []
  | r :: rs => if r.er.isSome then r.data else r.data ++ delivered rs

/-- A `Read` reports an error other than `io.EOF`. -/
def readFails : Option ReadErr → Bool
  | some (ReadErr.other _) => true
  | _ => false

/-- No read or write error occurs: up to and including the first read that
reports end-of-stream, no `Read` reports an error other than `io.EOF`, and
every `Write` of the bytes of a read is answered with the full count and no
error. A condition on the answers of the two endpoints only. -/
def errorFree : List ReadResult → List WriteResult → Bool
  | [], _ => true
  | r :: rs, ws =>
    if r.data = [] then
      !readFails r.er && (r.er.isSome || errorFree rs ws)
    else
      (nextWrite r.data.length ws).1.ew.isNone &&
        decide ((nextWrite r.data.length ws).1.nw = (r.data.length : Int)) &&
        !readFails r.er &&
        (r.er.isSome || errorFree rs (nextWrite r.data.length ws).2)

/-! ## `Server.ServeHTTP`: the tunnel session -/

/-- The two connection handles of a session: `fromConn` (the client stream
that `h2conn.Accept` returns) and `toConn` (the backend connection that
`net.Dial` returns). -/
inductive Conn where
  | fromConn
  | toConn
  deriving DecidableEq, Repr

/-- The two goroutines started at lines 108 and 112: loop (a) relays backend
to client, loop (b) relays client to backend. -/
inductive Routine where
  | backendToClient
  | clientToBackend
  deriving DecidableEq, Repr

/-- A statement of a copy goroutine. The results of `io.Copy` are dropped by
the source, so the statement carries none. -/
inductive RStmt where
  | Copy (dst src : Conn)
  | Close (c : Conn)
  deriving DecidableEq, Repr

/-- The bodies of the two goroutines, lines 109-110 and 113-114. -/
def Routine.body : Routine → List RStmt
  | Routine.backendToClient => [RStmt.Copy Conn.fromConn Conn.toConn, RStmt.Close Conn.toConn]
  | Routine.clientToBackend => [RStmt.Copy Conn.toConn Conn.fromConn, RStmt.Close Conn.fromConn]

/-- A statement of the handler from line 106 on. -/
inductive HStmt where
  | wgAdd (n : Nat)
  | go (r : Routine)
  | wgWait
  deriving DecidableEq, Repr

/-- Lines 107-117 of `ServeHTTP`. -/
def bridge : List HStmt :=
  [HStmt.wgAdd 2, HStmt.go Routine.backendToClient, HStmt.go Routine.clientToBackend,
   HStmt.wgWait]

/-- Who calls `Close`. -/
inductive Actor where
  | handler
  | routine (r : Routine)
  deriving DecidableEq, Repr

/-- The state of one tunnel session from line 106 on.

* `wg`: the counter of the wait group;
* `handler`: the statements the handler has still to run, `returned` once it
  has returned and its deferred calls have run, `deferred` the connections
  whose `Close` is deferred (last deferred first);
* `loopA`, `loopB`: the statements goroutine (a), (b) has still to run, `none`
  before its `go` statement;
* `fromClosed`, `toClosed`: `Close` has been called on the handle;
* `fromEOF`, `toEOF`: the endpoint behind the handle has ended its stream;
* `closes`: every `Close` call so far, latest first. -/
structure Session where
  wg : Nat
  handler : List HStmt
  returned : Bool
  deferred : List Conn
  loopA : Option (List RStmt)
  loopB : Option (List RStmt)
  fromClosed : Bool
  toClosed : Bool
  fromEOF : Bool
  toEOF : Bool
  closes : List (Actor × Conn)
  deriving DecidableEq, Repr

/-- The session at line 106: both handles open, `fromConn.Close` and
`toConn.Close` deferred at lines 98 and 104. -/
def Session.init : Session :=
  { wg := 0, handler := bridge, returned := false,
    deferred := [Conn.toConn, Conn.fromConn],
    loopA := none, loopB := none,
    fromClosed := false, toClosed := false, fromEOF := false, toEOF := false,
    closes := [] }

/-- Whether `Close` has been called on a handle. -/
def Session.closed (s : Session) : Conn → Bool
  | Conn.fromConn => s.fromClosed
  | Conn.toConn => s.toClosed

/-- Whether the endpoint behind a handle has ended its stream. -/
def Session.eof (s : Session) : Conn → Bool
  | Conn.fromConn => s.fromEOF
  | Conn.toConn => s.toEOF

/-- The remaining statements of a goroutine. -/
def Session.loop (s : Session) : Routine → Option (List RStmt)
  | Routine.backendToClient => s.loopA
  | Routine.clientToBackend => s.loopB

/-- Replace the remaining statements of a goroutine. -/
def Session.setLoop (s : Session) (r : Routine) (body : Option (List RStmt)) : Session :=
  match r with
  | Routine.backendToClient => { s with loopA := body }
  | Routine.clientToBackend => { s with loopB := body }

/-- The call `c.Close()` by `who`. -/
def Session.close (s : Session) (who : Actor) (c : Conn) : Session :=
  match c with
  | Conn.fromConn => { s with fromClosed := true, closes := (who, c) :: s.closes }
  | Conn.toConn => { s with toClosed := true, closes := (who, c) :: s.closes }

/-- The endpoint behind `c` ends its stream. -/
def Session.setEOF (s : Session) (c : Conn) : Session :=
  match c with
  | Conn.fromConn => { s with fromEOF := true }
  | Conn.toConn => { s with toEOF := true }

/-- Run the deferred `Close` calls of the handler. -/
def Session.runDeferred (s : Session) : List Conn → Session
  | [] => s
  | c :: cs => (s.close Actor.handler c).runDeferred cs

/-- Why a call of `io.Copy` inside a goroutine comes back: its `Read` saw the
end of the stream, its `Read` failed because the source handle was closed, or
its `Write` of bytes just read failed because the destination handle was
closed or the endpoint behind it is gone. -/
inductive CopyEnd where
  | srcEOF
  | readError
  | writeError
  deriving DecidableEq, Repr

/-- Whether `io.Copy(dst, src)` can come back for the given reason. A write
error needs bytes from the endpoint behind `src`, which must still be
sending. -/
def Session.copyCanEnd (s : Session) (dst src : Conn) : CopyEnd → Bool
  | CopyEnd.srcEOF => s.eof src
  | CopyEnd.readError => s.closed src
  | CopyEnd.writeError => (s.closed dst || s.eof dst) && !s.eof src && !s.closed src

/-- What can happen next in a session. -/
inductive Action where
  | handler
  | copyEnds (r : Routine) (why : CopyEnd)
  | run (r : Routine)
  | peerClose (c : Conn)
  deriving DecidableEq, Repr

/-- An action that needs no byte and no close from an endpoint. -/
def Action.isInternal : Action → Bool
  | Action.handler => true
  | Action.copyEnds _ CopyEnd.writeError => false
  | Action.copyEnds _ _ => true
  | Action.run _ => true
  | Action.peerClose _ => false

/-- One step of a session; `none` when the action is not enabled (the
goroutine is blocked, not started or finished).

* `handler`: the handler runs its next statement: `wg.Add(n)`, `go`,
  `wg.Wait()` (enabled only when the counter is 0), and after its last
  statement it returns, running its deferred calls;
* `copyEnds r why`: the `io.Copy` of goroutine `r` comes back;
* `run r`: goroutine `r` runs its `Close` statement;
* `peerClose c`: the endpoint behind `c` ends its stream. -/
def Session.step (s : Session) : Action → Option Session
  | Action.handler =>
    match s.handler with
    | HStmt.wgAdd n :: rest => some { s with wg := s.wg + n, handler := rest }
    | HStmt.go r :: rest => some { s.setLoop r (some r.body) with handler := rest }
    | HStmt.wgWait :: rest => if s.wg = 0 then some { s with handler := rest } else none
    | [] =>
      if s.returned then none
      else some { s.runDeferred s.deferred with returned := true, deferred := [] }
  | Action.copyEnds r why =>
    match s.loop r with
    | some (RStmt.Copy dst src :: rest) =>
      if s.copyCanEnd dst src why then some (s.setLoop r (some rest)) else none
    | _ => none
  | Action.run r =>
    match s.loop r with
    | some (RStmt.Close c :: rest) => some ((s.close (Actor.routine r) c).setLoop r (some rest))
    | _ => none
  | Action.peerClose c => some (s.setEOF c)

/-- Run a schedule of actions; `none` when one of them is not enabled. -/
def Session.exec (s : Session) : List Action → Option Session
  | [] => some s
  | a :: as =>
    match s.step a with
    | some t => t.exec as
    | none => none

/-- The states a session can be in: those some schedule leads to. -/
def Session.Reachable (s : Session) : Prop :=
  ∃ as : List Action, Session.init.exec as = some s

/-- Goroutine `r` has finished: it was started and has nothing left to run. -/
def Session.finished (s : Session) (r : Routine) : Bool :=
  s.loop r == some []

/-- The `io.Copy` of goroutine `r` has come back. -/
def Session.copyEnded (s : Session) (r : Routine) : Bool :=
  match s.loop r with
  | some (RStmt.Copy _ _ :: _) => false
  | some _ => true
  | none => false

/-- What the handler did up to line 105, in program order. `Error text code`
is the call `http.Error(w, text, code)`: it answers with status `code`, content
type `text/plain` and body `text`. `nilDereference` is the run-time panic of a
method call on a nil interface value. `Close c` is a deferred `Close` that
runs. -/
inductive HandlerEvent where
  | Accept
  | Warnf (format : String)
  | Error (text : String) (code : Nat)
  | deferClose (c : Conn)
  | Dial (network address : String)
  | nilDereference
  | Close (c : Conn)
  deriving DecidableEq, Repr

/-- The constant `http.StatusInternalServerError`. -/
def StatusInternalServerError : Nat := 500

/-- The function `http.StatusText`, at the one code the handler uses. -/
def StatusText (code : Nat) : String :=
  if code = 500 then "Internal Server Error" else ""

/-- How the handler leaves lines 91-105: it has answered and returned (line
95), it has panicked, or it goes on to line 106 with an established session. -/
inductive Entry where
  | responded (events : List HandlerEvent)
  | panicked (events : List HandlerEvent)
  | established (events : List HandlerEvent) (s : Session)
  deriving DecidableEq, Repr

/-- Lines 91-105 of `Server.ServeHTTP`. The inputs `acceptOk` and `dialOk` say
whether `h2conn.Accept` and `net.Dial` return a nil error.

When the dial fails `toConn` is the nil interface value; line 104,
`defer toConn.Close()`, evaluates the method value `toConn.Close` and that is
a run-time panic. The panic runs the call deferred at line 98. -/
def ServeHTTP (p : Server) (acceptOk dialOk : Bool) : Entry :=
  if !acceptOk then
    Entry.responded
      [HandlerEvent.Accept,
       HandlerEvent.Warnf "Failed creating full duplex connection from %s: %s",
       HandlerEvent.Error (StatusText StatusInternalServerError) StatusInternalServerError]
  else
    let upToDial := [HandlerEvent.Accept, HandlerEvent.deferClose Conn.fromConn,
      HandlerEvent.Dial "tcp" p.ToAddr]
    if !dialOk then
      Entry.panicked (upToDial ++
        [HandlerEvent.Warnf "Failed creating connection to %s: %s",
         HandlerEvent.nilDereference, HandlerEvent.Close Conn.fromConn])
    else
      Entry.established (upToDial ++ [HandlerEvent.deferClose Conn.toConn]) Session.init

/-- The events of the handler up to line 105. -/
def Entry.events : Entry → List HandlerEvent
  | Entry.responded evs => evs
  | Entry.panicked evs => evs
  | Entry.established evs _ => evs

/-- The session the handler goes on with from line 106, if any: only there is
the wait group armed and are the copy goroutines started. -/
def Entry.session : Entry → Option Session
  | Entry.responded _ => none
  | Entry.panicked _ => none
  | Entry.established _ s => some s

/-- The handle a goroutine reads from (the second argument of its `io.Copy`). -/
def Routine.src : Routine → Conn
  | Routine.backendToClient => Conn.toConn
  | Routine.clientToBackend => Conn.fromConn

/-- The handles on which `who` has called `Close` according to a log of
`Close` calls, latest first. -/
def closesBy (who : Actor) (log : List (Actor × Conn)) : List Conn :=
  (log.filter (fun e => e.1 == who)).map Prod.snd

/-- The invariant of the session machine: the handler is at one of the four
statements of `bridge` and has not returned, the counter is 2 once armed, each
goroutine is at one of its program points, and a handle is closed exactly when
the goroutine that reads from it has finished. -/
structure Session.Inv (s : Session) : Prop where
  notReturned : s.returned = false
  phase :
    (s.handler = bridge ∧ s.wg = 0 ∧ s.loopA = none ∧ s.loopB = none) ∨
    (s.handler = bridge.drop 1 ∧ s.wg = 2 ∧ s.loopA = none ∧ s.loopB = none) ∨
    (s.handler = bridge.drop 2 ∧ s.wg = 2 ∧ s.loopA ≠ none ∧ s.loopB = none) ∨
    (s.handler = bridge.drop 3 ∧ s.wg = 2 ∧ s.loopA ≠ none ∧ s.loopB ≠ none)
  loopA :
    ((s.loopA = none ∨ s.loopA = some Routine.backendToClient.body ∨
        s.loopA = some [RStmt.Close Conn.toConn]) ∧
      s.toClosed = false ∧ closesBy (Actor.routine Routine.backendToClient) s.closes = []) ∨
    (s.loopA = some [] ∧ s.toClosed = true ∧
      closesBy (Actor.routine Routine.backendToClient) s.closes = [Conn.toConn])
  loopB :
    ((s.loopB = none ∨ s.loopB = some Routine.clientToBackend.body ∨
        s.loopB = some [RStmt.Close Conn.fromConn]) ∧
      s.fromClosed = false ∧ closesBy (Actor.routine Routine.clientToBackend) s.closes = []) ∨
    (s.loopB = some [] ∧ s.fromClosed = true ∧
      closesBy (Actor.routine Routine.clientToBackend) s.closes = [Conn.fromConn])
  handlerCloses : closesBy Actor.handler s.closes = []

/-! ## Concrete inputs -/

/-- A cleartext configuration with the tunnel at `/tunnel` and a web root. -/
def plainServer : Server :=
  { FromAddr := ":8080", ToAddr := "127.0.0.1:22", Path := "/tunnel",
    KeyFile := "", CertFile := "", WebRoot := "/var/www" }

/-- A TLS configuration with the tunnel at `/tunnel` and no web root. -/
def tlsServer : Server :=
  { FromAddr := ":8443", ToAddr := "127.0.0.1:22", Path := "/tunnel",
    KeyFile := "server.key", CertFile := "server.crt", WebRoot := "" }

/-- A TLS configuration with an empty tunnel path. -/
def emptyPathServer : Server :=
  { FromAddr := ":8443", ToAddr := "127.0.0.1:22", Path := "",
    KeyFile := "server.key", CertFile := "server.crt", WebRoot := "" }

/-- A configuration whose tunnel path ends in a slash. -/
def subtreeServer : Server :=
  { FromAddr := ":8080", ToAddr := "127.0.0.1:22", Path := "/tunnel/",
    KeyFile := "", CertFile := "", WebRoot := "/var/www" }

/-- The handler arms the wait group and starts both goroutines. -/
def startBridge : List Action := [Action.handler, Action.handler, Action.handler]

/-- The client ends its stream; loop (b) sees the end of the stream and closes
the client stream. -/
def clientClosesFirst : List Action :=
  startBridge ++ [Action.peerClose Conn.fromConn,
    Action.copyEnds Routine.clientToBackend CopyEnd.srcEOF, Action.run Routine.clientToBackend]

/-- The backend ends its stream; loop (a) sees the end of the stream and
closes the backend connection. -/
def backendClosesFirst : List Action :=
  startBridge ++ [Action.peerClose Conn.toConn,
    Action.copyEnds Routine.backendToClient CopyEnd.srcEOF, Action.run Routine.backendToClient]

/-- Both endpoints end their streams and both loops run to their end. -/
def bothClose : List Action :=
  clientClosesFirst ++ [Action.peerClose Conn.toConn,
    Action.copyEnds Routine.backendToClient CopyEnd.srcEOF, Action.run Routine.backendToClient]

/-- The session after `clientClosesFirst`. -/
def afterClientClose : Session :=
  { wg := 2, handler := [HStmt.wgWait], returned := false,
    deferred := [Conn.toConn, Conn.fromConn],
    loopA := some Routine.backendToClient.body, loopB := some [],
    fromClosed := true, toClosed := false, fromEOF := true, toEOF := false,
    closes := [(Actor.routine Routine.clientToBackend, Conn.fromConn)] }

/-- The session after `backendClosesFirst`. -/
def afterBackendClose : Session :=
  { wg := 2, handler := [HStmt.wgWait], returned := false,
    deferred := [Conn.toConn, Conn.fromConn],
    loopA := some [], loopB := some Routine.clientToBackend.body,
    fromClosed := false, toClosed := true, fromEOF := false, toEOF := true,
    closes := [(Actor.routine Routine.backendToClient, Conn.toConn)] }

/-- The session after `bothClose`. -/
def afterBothClose : Session :=
  { wg := 2, handler := [HStmt.wgWait], returned := false,
    deferred := [Conn.toConn, Conn.fromConn],
    loopA := some [], loopB := some [],
    fromClosed := true, toClosed := true, fromEOF := true, toEOF := true,
    closes := [(Actor.routine Routine.backendToClient, Conn.toConn),
               (Actor.routine Routine.clientToBackend, Conn.fromConn)] }

/-- A managed shutdown: the context is cancelled, the goroutine wakes up and
calls `srv.Shutdown`, the listener call comes back and `Serve` runs its
check. -/
def managedShutdown : List LifecycleAction :=
  [LifecycleAction.cancel, LifecycleAction.watcher, LifecycleAction.watcher,
   LifecycleAction.main, LifecycleAction.main]

/-- The state after `managedShutdown`: `Serve` has returned
`http.ErrServerClosed`, the goroutine is still inside `srv.Shutdown`. -/
def afterManagedShutdown : Lifecycle :=
  { wg := 1, main := [], err := some ListenError.ErrServerClosed,
    result := some (some ListenError.ErrServerClosed),
    watcher := [WatcherStmt.ShutdownReturn, WatcherStmt.wgDone],
    ctxDone := true, stopped := some ListenError.ErrServerClosed }

/-- The bytes of `PING`. -/
def ping : List Byte := [80, 73, 78, 71]

/-! ## The session machine keeps its invariant -/

/-- Nobody has closed anything in an empty log. -/
theorem closesBy_nil (who : Actor) : closesBy who [] = [] := rfl

/-- A new `Close` call is added to the closes of its caller only. -/
theorem closesBy_cons (who w : Actor) (c : Conn) (log : List (Actor × Conn)) :
    closesBy who ((w, c) :: log) =
      if w = who then c :: closesBy who log else closesBy who log := by
  by_cases h : w = who <;> simp [closesBy, List.filter_cons, h]

/-- The invariant holds at line 106. -/
theorem Session.inv_init : Session.init.Inv := by
  constructor <;> simp [Session.init, closesBy_nil, bridge]

/-- Every step of the session machine keeps the invariant. -/
theorem Session.inv_step {s t : Session} {a : Action} (hs : s.Inv) (h : s.step a = some t) :
    t.Inv := by
  obtain ⟨h1, h2, h3, h4, h5⟩ := hs
  rcases h2 with ⟨p1, p2, p3, p4⟩ | ⟨p1, p2, p3, p4⟩ | ⟨p1, p2, p3, p4⟩ | ⟨p1, p2, p3, p4⟩ <;>
  rcases h3 with ⟨a1 | a1 | a1, a2, a3⟩ | ⟨a1, a2, a3⟩ <;>
  (try (simp [a1, Routine.body] at p3; done)) <;>
  rcases h4 with ⟨b1 | b1 | b1, b2, b3⟩ | ⟨b1, b2, b3⟩ <;>
  (try (simp [b1, Routine.body] at p4; done)) <;>
  (rcases a with _ | ⟨r, why⟩ | r | c
   · simp [Session.step, p1, p2, bridge, h1] at h
     try (subst h
          constructor <;>
            simp [bridge, Session.setLoop, Routine.body, closesBy_cons, *])
   · cases r <;> simp [Session.step, Session.loop, a1, b1, Routine.body] at h <;>
       (try (obtain ⟨_, h⟩ := h
             subst h
             constructor <;>
               simp [bridge, Session.setLoop, Routine.body, closesBy_cons, *]))
   · cases r <;> simp [Session.step, Session.loop, a1, b1, Routine.body] at h <;>
       (try (subst h
             constructor <;>
               simp [bridge, Session.setLoop, Session.close, Routine.body, closesBy_cons, *]))
   · cases c <;> simp [Session.step, Session.setEOF] at h <;>
       (subst h
        constructor <;>
               simp [bridge, Routine.body, closesBy_cons, *]))

/-- Every schedule keeps the invariant. -/
theorem Session.inv_exec (as : List Action) :
    ∀ {s t : Session}, s.Inv → s.exec as = some t → t.Inv := by
  induction as with
  | nil =>
    intro s t hs h
    simp only [Session.exec, Option.some.injEq] at h
    exact h ▸ hs
  | cons a as ih =>
    intro s t hs h
    simp only [Session.exec] at h
    cases hstep : s.step a with
    | none => simp [hstep] at h
    | some u =>
      simp only [hstep] at h
      exact ih (Session.inv_step hs hstep) h

/-- The invariant holds in every reachable state of a session. -/
theorem Session.inv_of_reachable {s : Session} (h : s.Reachable) : s.Inv := by
  obtain ⟨as, has⟩ := h
  exact Session.inv_exec as Session.inv_init has

/-- A session in which every internal action is blocked stays as it is under
any schedule of internal actions. -/
theorem Session.exec_internal_of_blocked {s : Session}
    (hblocked : ∀ a : Action, a.isInternal = true → s.step a = none) :
    ∀ (as : List Action), (∀ a ∈ as, a.isInternal = true) →
      ∀ t, s.exec as = some t → t = s := by
  intro as hint t h
  cases as with
  | nil =>
    simp only [Session.exec, Option.some.injEq] at h
    exact h.symm
  | cons a as =>
    have hb := hblocked a (hint a (List.mem_cons_self a as))
    simp [Session.exec, hb] at h

/-- After the client has ended its stream and loop (b) has finished, nothing
can move without an endpoint. -/
theorem afterClientClose_blocked :
    ∀ a : Action, a.isInternal = true → afterClientClose.step a = none := by
  intro a ha
  rcases a with _ | ⟨r, why⟩ | r | c
  · rfl
  · cases r <;> cases why <;> first | rfl | simp [Action.isInternal] at ha
  · cases r <;> rfl
  · simp [Action.isInternal] at ha

/-- After the backend has ended its stream and loop (a) has finished, nothing
can move without an endpoint. -/
theorem afterBackendClose_blocked :
    ∀ a : Action, a.isInternal = true → afterBackendClose.step a = none := by
  intro a ha
  rcases a with _ | ⟨r, why⟩ | r | c
  · rfl
  · cases r <;> cases why <;> first | rfl | simp [Action.isInternal] at ha
  · cases r <;> rfl
  · simp [Action.isInternal] at ha

/-! ## `io.Copy` relays a prefix -/

/-- A read without error is followed by the rest of the stream. -/
theorem delivered_cons_none (r : ReadResult) (rs : List ReadResult) (h : r.er = none) :
    delivered (r :: rs) = r.data ++ delivered rs := by
  simp [delivered, h]

/-- A read with an error or end-of-stream ends the stream. -/
theorem delivered_cons_some (r : ReadResult) (rs : List ReadResult) (e : ReadErr)
    (h : r.er = some e) : delivered (r :: rs) = r.data := by
  simp [delivered, h]

/-- What the destination takes of one read keeps the output a prefix of the
stream. -/
theorem take_delivered (out : List Byte) (r : ReadResult) (rs : List ReadResult) (k : Nat) :
    out ++ List.take k r.data <+: out ++ delivered (r :: rs) := by
  refine (List.prefix_append_right_inj out).2 ?_
  refine ( List.take_prefix k r.data).trans ?_
  unfold delivered
  split
  · exact List.prefix_refl _
  · exact List.prefix_append _ _

/-- The copy loop, from any intermediate state: the output stays a prefix of
what was there plus the stream, and is all of it when no error is reported. -/
theorem copyBuffer_out (rs : List ReadResult) :
    ∀ (ws : List WriteResult) (written : Int) (out : List Byte),
      (copyBuffer rs ws written out).out <+: out ++ delivered rs ∧
      ((copyBuffer rs ws written out).err = none →
        (copyBuffer rs ws written out).out = out ++ delivered rs) := by
  induction rs with
  | nil => intro ws written out; simp [copyBuffer, delivered]
  | cons r rs ih =>
    intro ws written out
    have hpre := take_delivered out r rs
    unfold copyBuffer
    simp only []
    generalize nextWrite r.data.length ws = w'
    obtain ⟨⟨nw, ew⟩, ws1⟩ := w'
    simp only []
    by_cases hnr : (0 : Int) < (r.data.length : Int)
    · rw [if_pos hnr]
      by_cases hinv : (decide (nw < 0) || decide ((r.data.length : Int) < nw)) = true
      · cases ew <;> simp only [hinv, if_true] <;> exact ⟨hpre _, by simp⟩
      · simp only [hinv, Bool.false_eq_true, if_false]
        cases ew with
        | some m => exact ⟨hpre _, by simp⟩
        | none =>
          simp only [Option.map]
          by_cases hsw : (r.data.length : Int) = nw
          · subst hsw
            simp only [ne_eq, not_true_eq_false, if_false, Int.toNat_ofNat, List.take_length]
            cases her : r.er with
            | none =>
              simp only [delivered_cons_none r rs her, ← List.append_assoc]
              exact ih _ _ _
            | some e =>
              cases e <;> simp [delivered_cons_some r rs _ her]
          · rw [if_pos hsw]
            exact ⟨hpre _, by simp⟩
    · rw [if_neg hnr]
      have hnil : r.data = [] := by
        cases hd : r.data with
        | nil => rfl
        | cons x xs => simp [hd] at hnr
      cases her : r.er with
      | none =>
        simpa [delivered_cons_none r rs her, hnil] using ih ws written out
      | some e =>
        cases e <;> simp [delivered_cons_some r rs _ her, hnil]

/-- The copy loop, from any intermediate state: it reports no error exactly
when no read or write error occurs, and then it has counted every byte of the
stream. -/
theorem copyBuffer_errorFree (rs : List ReadResult) :
    ∀ (ws : List WriteResult) (written : Int) (out : List Byte),
      (errorFree rs ws = true ↔ (copyBuffer rs ws written out).err = none) ∧
      (errorFree rs ws = true →
        (copyBuffer rs ws written out).written = written + ((delivered rs).length : Int)) := by
  induction rs with
  | nil => intro ws written out; simp [copyBuffer, delivered, errorFree]
  | cons r rs ih =>
    intro ws written out
    unfold copyBuffer errorFree
    simp only []
    generalize nextWrite r.data.length ws = w'
    obtain ⟨⟨nw, ew⟩, ws1⟩ := w'
    simp only []
    by_cases hnr : (0 : Int) < (r.data.length : Int)
    · have hne : r.data ≠ [] := by
        intro h
        simp [h] at hnr
      rw [if_pos hnr, if_neg hne]
      by_cases hinv : (decide (nw < 0) || decide ((r.data.length : Int) < nw)) = true
      · have hnw : nw ≠ (r.data.length : Int) := by
          intro h
          subst h
          simp at hinv
          omega
        cases ew <;> simp [hinv, hnw]
      · simp only [hinv, Bool.false_eq_true, if_false]
        cases ew with
        | some m => simp
        | none =>
          simp only [Option.map]
          by_cases hsw : (r.data.length : Int) = nw
          · subst hsw
            simp only [ne_eq, not_true_eq_false, if_false]
            cases her : r.er with
            | none =>
              have h := ih ws1 (written + (r.data.length : Int)) (out ++ r.data)
              simpa [delivered_cons_none r rs her, readFails, Int.add_assoc] using h
            | some e =>
              cases e <;> simp [delivered_cons_some r rs _ her, readFails]
          · have hsw' : ¬ nw = (r.data.length : Int) := fun h => hsw h.symm
            rw [if_pos hsw]
            simp [hsw']
    · have hnil : r.data = [] := by
        cases hd : r.data with
        | nil => rfl
        | cons x xs => simp [hd] at hnr
      rw [if_neg hnr, if_pos hnil]
      cases her : r.er with
      | none =>
        simpa [delivered_cons_none r rs her, hnil, readFails] using ih ws written out
      | some e =>
        cases e <;> simp [delivered_cons_some r rs _ her, hnil, readFails]

/-- A destination that takes every write in full and a source none of whose
reads fails: no read or write error occurs. -/
theorem errorFree_of_reads_ok (rs : List ReadResult)
    (h : ∀ r ∈ rs, readFails r.er = false) : errorFree rs [] = true := by
  induction rs with
  | nil => rfl
  | cons r rs ih =>
    have hr := h r (List.mem_cons_self r rs)
    have hrs := ih (fun x hx => h x (List.mem_cons_of_mem r hx))
    unfold errorFree
    by_cases hd : r.data = [] <;> simp [hd, hr, hrs, nextWrite]

/-! ## The router -/

/-- A pattern that begins with a slash is not empty. -/
theorem namesHost_false_ne_empty {pattern : String} (h : namesHost pattern = false) :
    pattern ≠ "" := by
  intro e
  subst e
  simp [namesHost] at h

/-- A pattern that does not end in a slash is not the root pattern. -/
theorem endsInSlash_false_ne_slash {pattern : String} (h : endsInSlash pattern = false) :
    pattern ≠ "/" := by
  intro e
  subst e
  simp [endsInSlash] at h

/-! ## The claims about `Server.ServeHTTP` -/

/-- C1, what the code does: with accept and dial both successful the handler
arms the wait group with 2 and blocks on it, but no goroutine ever decrements
it. In every reachable state the handler has not returned; in every reachable
state where both copy loops have finished the counter is still 2 and the
handler is blocked in `wg.Wait()`; and such a state is reached when both
endpoints end their streams. -/
theorem bridge_wait_is_never_released :
    (∀ p : Server, (ServeHTTP p true true).session = some Session.init) ∧
    (∀ s : Session, s.Reachable →
      s.returned = false ∧ s.handler ≠ [] ∧
      (s.finished Routine.backendToClient = true →
        s.finished Routine.clientToBackend = true →
          s.wg = 2 ∧ s.handler = [HStmt.wgWait] ∧ s.step Action.handler = none)) ∧
    (Session.init.exec bothClose = some afterBothClose ∧
      afterBothClose.finished Routine.backendToClient = true ∧
      afterBothClose.finished Routine.clientToBackend = true) := by
  refine ⟨fun p => rfl, ?_, by decide⟩
  intro s hs
  obtain ⟨h1, h2, h3, h4, h5⟩ := Session.inv_of_reachable hs
  refine ⟨h1, ?_, ?_⟩
  · rcases h2 with ⟨p1, _⟩ | ⟨p1, _⟩ | ⟨p1, _⟩ | ⟨p1, _⟩ <;> simp [p1, bridge]
  · intro fa fb
    rcases h2 with ⟨p1, p2, p3, p4⟩ | ⟨p1, p2, p3, p4⟩ | ⟨p1, p2, p3, p4⟩ | ⟨p1, p2, p3, p4⟩
    · simp [Session.finished, Session.loop, p3] at fa
    · simp [Session.finished, Session.loop, p3] at fa
    · simp [Session.finished, Session.loop, p4] at fb
    · simp [Session.step, p1, p2, bridge]

/-- C2, counterexample: the client ends its stream, loop (b) ends and closes
the client stream; the backend connection is then still open and stays open
under every schedule that uses no byte and no close from an endpoint. The
same holds with the roles exchanged after the backend ends its stream. -/
theorem one_loop_end_leaves_other_handle_open :
    (Session.init.exec clientClosesFirst = some afterClientClose ∧
      afterClientClose.finished Routine.clientToBackend = true ∧
      ∀ as : List Action, (∀ a ∈ as, a.isInternal = true) →
        ∀ t, afterClientClose.exec as = some t → t.toClosed = false) ∧
    (Session.init.exec backendClosesFirst = some afterBackendClose ∧
      afterBackendClose.finished Routine.backendToClient = true ∧
      ∀ as : List Action, (∀ a ∈ as, a.isInternal = true) →
        ∀ t, afterBackendClose.exec as = some t → t.fromClosed = false) := by
  refine ⟨⟨by decide, by decide, ?_⟩, ⟨by decide, by decide, ?_⟩⟩
  · intro as hint t ht
    rw [Session.exec_internal_of_blocked afterClientClose_blocked as hint t ht]
    rfl
  · intro as hint t ht
    rw [Session.exec_internal_of_blocked afterBackendClose_blocked as hint t ht]
    rfl

/-- C2, amended: in every reachable state of an established session, once the
`io.Copy` of a loop has come back the handle that loop reads from is closed
or is closed by the loop's own next statement, with no event from an
endpoint; and a handle is closed only after the loop that reads from it has
ended its copy (or the handler has returned). -/
theorem loop_end_closes_own_source (s : Session) (h : s.Reachable) :
    (∀ r : Routine, s.copyEnded r = true →
      s.closed r.src = true ∨
        ((Action.run r).isInternal = true ∧
          ∃ t, s.step (Action.run r) = some t ∧ t.closed r.src = true)) ∧
    (s.toClosed = true → s.copyEnded Routine.backendToClient = true ∨ s.returned = true) ∧
    (s.fromClosed = true → s.copyEnded Routine.clientToBackend = true ∨ s.returned = true) := by
  obtain ⟨h1, h2, h3, h4, h5⟩ := Session.inv_of_reachable h
  refine ⟨?_, ?_, ?_⟩
  · intro r hr
    cases r
    · rcases h3 with ⟨a1 | a1 | a1, a2, a3⟩ | ⟨a1, a2, a3⟩
      · simp [Session.copyEnded, Session.loop, a1] at hr
      · simp [Session.copyEnded, Session.loop, a1, Routine.body] at hr
      · right
        simp [Session.step, Session.loop, a1, Session.close, Session.setLoop, Session.closed,
          Routine.src, Action.isInternal]
      · left
        simpa [Session.closed, Routine.src] using a2
    · rcases h4 with ⟨b1 | b1 | b1, b2, b3⟩ | ⟨b1, b2, b3⟩
      · simp [Session.copyEnded, Session.loop, b1] at hr
      · simp [Session.copyEnded, Session.loop, b1, Routine.body] at hr
      · right
        simp [Session.step, Session.loop, b1, Session.close, Session.setLoop, Session.closed,
          Routine.src, Action.isInternal]
      · left
        simpa [Session.closed, Routine.src] using b2
  · intro hc
    rcases h3 with ⟨_, a2, _⟩ | ⟨a1, _, _⟩
    · simp [a2] at hc
    · left
      simp [Session.copyEnded, Session.loop, a1]
  · intro hc
    rcases h4 with ⟨_, b2, _⟩ | ⟨b1, _, _⟩
    · simp [b2] at hc
    · left
      simp [Session.copyEnded, Session.loop, b1]

/-- C2, amended, at the session in which the client has ended its stream. -/
theorem loop_end_closes_own_source_witness :
    afterClientClose.Reachable ∧
    (afterClientClose.copyEnded Routine.clientToBackend = true →
      afterClientClose.closed Routine.clientToBackend.src = true ∨
        ((Action.run Routine.clientToBackend).isInternal = true ∧
          ∃ t, afterClientClose.step (Action.run Routine.clientToBackend) = some t ∧
            t.closed Routine.clientToBackend.src = true)) :=
  ⟨⟨clientClosesFirst, by decide⟩,
    (loop_end_closes_own_source afterClientClose ⟨clientClosesFirst, by decide⟩).1
      Routine.clientToBackend⟩

/-- C10: in every reachable state of an established session and for each of
the two loops: the loop has called `Close` on nothing or on the handle it
reads from and on that only (loop (a): the backend connection, loop (b): the
client stream); it has called it only after its `io.Copy` came back; once the
copy has come back the loop has finished with that handle closed or its next
statement is that `Close`; and whatever ends the copy (end of stream, read
error, write error) the loop goes on to the same `Close` and nothing else of
the session changes, so the handler does not learn of the error. -/
theorem half_close_policy (s : Session) (h : s.Reachable) (r : Routine) :
    (closesBy (Actor.routine r) s.closes = [] ∨
      closesBy (Actor.routine r) s.closes = [r.src]) ∧
    (closesBy (Actor.routine r) s.closes ≠ [] → s.copyEnded r = true) ∧
    (s.copyEnded r = true →
      (s.finished r = true ∧ closesBy (Actor.routine r) s.closes = [r.src]) ∨
      (closesBy (Actor.routine r) s.closes = [] ∧
        ∃ t, s.step (Action.run r) = some t ∧ t.finished r = true ∧
          closesBy (Actor.routine r) t.closes = [r.src])) ∧
    (∀ (why : CopyEnd) (t : Session), s.step (Action.copyEnds r why) = some t →
      t = s.setLoop r (some [RStmt.Close r.src])) := by
  obtain ⟨h1, h2, h3, h4, h5⟩ := Session.inv_of_reachable h
  cases r
  · rcases h3 with ⟨a1 | a1 | a1, a2, a3⟩ | ⟨a1, a2, a3⟩
    · simp [Session.copyEnded, Session.step, Session.loop, a1, a3]
    · simp only [Session.copyEnded, Session.step, Session.loop, a1, a3, Routine.body,
        Routine.src]
      simp
    · simp [Session.copyEnded, Session.step, Session.loop, a1, a3, Routine.src,
        Session.finished, Session.close, Session.setLoop, closesBy_cons]
    · simp [Session.copyEnded, Session.step, Session.loop, a1, a3, Routine.src,
        Session.finished]
  · rcases h4 with ⟨b1 | b1 | b1, b2, b3⟩ | ⟨b1, b2, b3⟩
    · simp [Session.copyEnded, Session.step, Session.loop, b1, b3]
    · simp only [Session.copyEnded, Session.step, Session.loop, b1, b3, Routine.body,
        Routine.src]
      simp
    · simp [Session.copyEnded, Session.step, Session.loop, b1, b3, Routine.src,
        Session.finished, Session.close, Session.setLoop, closesBy_cons]
    · simp [Session.copyEnded, Session.step, Session.loop, b1, b3, Routine.src,
        Session.finished]

/-- C10 at the session in which the backend has ended its stream: loop (a)
has closed the backend connection and nothing else. -/
theorem half_close_policy_witness :
    afterBackendClose.Reachable ∧
    (closesBy (Actor.routine Routine.backendToClient) afterBackendClose.closes = [] ∨
      closesBy (Actor.routine Routine.backendToClient) afterBackendClose.closes =
        [Routine.backendToClient.src]) :=
  ⟨⟨backendClosesFirst, by decide⟩,
    (half_close_policy afterBackendClose ⟨backendClosesFirst, by decide⟩
      Routine.backendToClient).1⟩

/-- C3: for every sequence of answers of the source and of the destination,
the bytes `io.Copy` hands to the destination are a prefix of the bytes the
source delivers, in the same order, whatever error occurs; and if no read or
write error occurs (`errorFree`, a condition on the answers of the two
endpoints) they are exactly the bytes the source delivers, all of them are
counted and `io.Copy` reports no error. `io.Copy` reports no error exactly in
that case. In particular a source none of whose reads fails is relayed in
full to a destination that takes every write. Both loops are this call, with
the two handles exchanged. -/
theorem Copy_relays_in_order (src : List ReadResult) (dst : List WriteResult) :
    (Copy src dst).out <+: delivered src ∧
    (errorFree src dst = true →
      (Copy src dst).out = delivered src ∧
      (Copy src dst).written = ((delivered src).length : Int) ∧
      (Copy src dst).err = none) ∧
    (errorFree src dst = true ↔ (Copy src dst).err = none) ∧
    ((∀ r ∈ src, readFails r.er = false) → (Copy src []).out = delivered src) ∧
    (Routine.backendToClient.body.head? = some (RStmt.Copy Conn.fromConn Conn.toConn) ∧
      Routine.clientToBackend.body.head? = some (RStmt.Copy Conn.toConn Conn.fromConn)) := by
  have h := copyBuffer_out src dst 0 []
  have e := copyBuffer_errorFree src dst 0 []
  simp only [List.nil_append, Int.zero_add] at h e
  refine ⟨h.1, ?_, e.1, ?_, rfl, rfl⟩
  · intro hfree
    exact ⟨h.2 (e.1.1 hfree), e.2 hfree, e.1.1 hfree⟩
  · intro hok
    have h0 := copyBuffer_out src [] 0 []
    have e0 := copyBuffer_errorFree src [] 0 []
    simp only [List.nil_append] at h0
    exact h0.2 (e0.1.1 (errorFree_of_reads_ok src hok))

/-- C3 on `PING`, read in two pieces; the first write is answered in full by
the script, the second by the default. -/
theorem Copy_relays_in_order_witness :
    errorFree [{ data := [80, 73], er := none }, { data := [78, 71], er := some ReadErr.EOF }]
        [{ nw := 2, ew := none }] = true ∧
    (Copy [{ data := [80, 73], er := none }, { data := [78, 71], er := some ReadErr.EOF }]
        [{ nw := 2, ew := none }]).out = ping :=
  ⟨by decide,
    (((Copy_relays_in_order
      [{ data := [80, 73], er := none }, { data := [78, 71], er := some ReadErr.EOF }]
      [{ nw := 2, ew := none }]).2.1 (by decide)).1).trans (by decide)⟩

/-- C4: when `h2conn.Accept` fails the handler logs, answers with
`http.Error(w, "Internal Server Error", 500)` and returns: no dial, no
session, so no wait group and no copy loop. Conversely an `http.Error` answer
occurs only when the accept failed. -/
theorem ServeHTTP_accept_failure (p : Server) (acceptOk dialOk : Bool) :
    (ServeHTTP p false dialOk =
      Entry.responded
        [HandlerEvent.Accept,
         HandlerEvent.Warnf "Failed creating full duplex connection from %s: %s",
         HandlerEvent.Error "Internal Server Error" 500]) ∧
    (∀ network address, HandlerEvent.Dial network address ∉ (ServeHTTP p false dialOk).events) ∧
    (ServeHTTP p false dialOk).session = none ∧
    (∀ text code, HandlerEvent.Error text code ∈ (ServeHTTP p acceptOk dialOk).events →
      acceptOk = false) := by
  refine ⟨rfl, ?_, rfl, ?_⟩
  · intro network address
    simp [ServeHTTP, Entry.events]
  · intro text code
    cases acceptOk <;> cases dialOk <;> simp [ServeHTTP, Entry.events]

/-- C5, what the code does: with the accept successful and the dial failed
the handler logs a warning but does not return as it does at line 95 after a
failed accept; it goes on to line 104 with `toConn` nil, where the deferred
`Close` panics. It has sent no HTTP error response, the call deferred at line
98 closes the client stream, and no session comes to exist: the wait group is
not armed and no copy loop is started. -/
theorem ServeHTTP_dial_failure (p : Server) :
    ServeHTTP p true false =
      Entry.panicked
        [HandlerEvent.Accept, HandlerEvent.deferClose Conn.fromConn,
         HandlerEvent.Dial "tcp" p.ToAddr,
         HandlerEvent.Warnf "Failed creating connection to %s: %s",
         HandlerEvent.nilDereference, HandlerEvent.Close Conn.fromConn] ∧
    (∀ text code, HandlerEvent.Error text code ∉ (ServeHTTP p true false).events) ∧
    (ServeHTTP p true false).session = none := by
  refine ⟨rfl, ?_, rfl⟩
  intro text code
  simp [ServeHTTP, Entry.events]

/-! ## The claims about `Server.Serve` -/

/-- The invariant of `Serve` holds at line 76. -/
theorem Lifecycle.serve_inv_init : Lifecycle.init.Inv := by
  simp [Lifecycle.Inv, Lifecycle.init]

/-- Every step of `Serve` and its goroutine keeps the invariant. -/
theorem Lifecycle.serve_inv_step {s t : Lifecycle} {a : LifecycleAction} (hs : s.Inv)
    (h : s.step a = some t) : t.Inv := by
  rcases hs with ⟨m1, m2, m3⟩ | ⟨m1, m2, m3⟩ | ⟨m1, m2, m3⟩ <;>
  (rcases a with _ | msg | _ | _
   · simp only [Lifecycle.step, Option.some.injEq] at h
     subst h
     simp [Lifecycle.Inv, *]
   · simp only [Lifecycle.step] at h
     cases hst : s.stopped <;> simp [hst] at h
     subst h
     simp [Lifecycle.Inv, *]
   · simp only [Lifecycle.step, m1] at h
     cases hst : s.stopped <;> cases he : s.err <;> cases hr : s.result <;>
       simp_all [Lifecycle.Inv] <;> (subst h; simp_all)
   · simp only [Lifecycle.step] at h
     rcases hw : s.watcher with _ | ⟨w, ws⟩
     · simp [hw] at h
     · cases w <;> cases hst : s.stopped <;> cases hc : s.ctxDone <;>
         simp [hw, hst, hc] at h <;> (subst h; simp [Lifecycle.Inv, *]))

/-- Every schedule keeps the invariant of `Serve`. -/
theorem Lifecycle.serve_inv_exec (as : List LifecycleAction) :
    ∀ {s t : Lifecycle}, s.Inv → s.exec as = some t → t.Inv := by
  induction as with
  | nil =>
    intro s t hs h
    simp only [Lifecycle.exec, Option.some.injEq] at h
    exact h ▸ hs
  | cons a as ih =>
    intro s t hs h
    simp only [Lifecycle.exec] at h
    cases hstep : s.step a with
    | none => simp [hstep] at h
    | some u =>
      simp only [hstep] at h
      exact ih (Lifecycle.serve_inv_step hs hstep) h

/-- The invariant holds in every reachable state of `Serve`. -/
theorem Lifecycle.serve_inv_of_reachable {s : Lifecycle} (h : s.Reachable) : s.Inv := by
  obtain ⟨as, has⟩ := h
  exact Lifecycle.serve_inv_exec as Lifecycle.serve_inv_init has

/-- C6, what the code does: `Serve` returns whatever error the listener call
came back with, at line 82. In no reachable state has it returned nil; after a
managed shutdown (context cancelled, `srv.Shutdown` called) it has returned
`http.ErrServerClosed`. -/
theorem Serve_never_returns_nil :
    (∀ p : Server, Serve p = ServeEntry.panicked ∨
      ∃ srv call, Serve p = ServeEntry.serving srv call Lifecycle.init) ∧
    (∀ s : Lifecycle, s.Reachable → s.result ≠ some none) ∧
    (Lifecycle.init.exec managedShutdown = some afterManagedShutdown ∧
      afterManagedShutdown.result = some (some ListenError.ErrServerClosed)) := by
  refine ⟨?_, ?_, by decide⟩
  · intro p
    unfold Serve
    cases router p
    · exact Or.inl rfl
    · exact Or.inr ⟨_, _, rfl⟩
  · intro s hs
    rcases Lifecycle.serve_inv_of_reachable hs with ⟨_, _, m3⟩ | ⟨_, _, m3⟩ | ⟨_, m2, m3⟩
    · simp [m3]
    · simp [m3]
    · rw [m3]
      intro h
      exact m2 (Option.some.inj h)

/-- C7, what the code does: in no reachable state is `Serve` at `wg.Wait()`
(line 85), so it never joins the goroutine that runs `srv.Shutdown`; and after
a managed shutdown there is a reachable state in which `Serve` has returned
while that goroutine is still inside `srv.Shutdown` and the counter is 1. -/
theorem Serve_returns_without_join :
    (∀ s : Lifecycle, s.Reachable → s.main.head? ≠ some MainStmt.wgWait) ∧
    (Lifecycle.init.exec managedShutdown = some afterManagedShutdown ∧
      afterManagedShutdown.result.isSome = true ∧
      afterManagedShutdown.watcher = [WatcherStmt.ShutdownReturn, WatcherStmt.wgDone] ∧
      afterManagedShutdown.wg = 1) := by
  refine ⟨?_, by decide⟩
  intro s hs
  rcases Lifecycle.serve_inv_of_reachable hs with ⟨m1, _, _⟩ | ⟨m1, _, _⟩ | ⟨m1, _, _⟩ <;>
    simp [m1]

/-- C8, counterexample: a TLS configuration with an empty tunnel path. The
registration `mux.Handle("", p)` of line 43 panics, so `Serve` never reaches
its listener call. -/
theorem empty_path_never_serves :
    serveTLS emptyPathServer = true ∧ Serve emptyPathServer = ServeEntry.panicked := by
  decide

/-- C8, amended: for every configuration `Serve` selects TLS exactly when
`KeyFile` and `CertFile` are both non-empty; and for every configuration
whose `Path` is non-empty and is not `/` together with a non-empty `WebRoot`,
the router is built and `Serve` serves on `FromAddr`: in TLS mode the router
itself with `ListenAndServeTLS(CertFile, KeyFile)`, otherwise the router
wrapped by the h2c handler with `ListenAndServe`. -/
theorem Serve_mode_selection (p : Server) :
    (serveTLS p = true ↔ p.KeyFile ≠ "" ∧ p.CertFile ≠ "") ∧
    (p.Path ≠ "" → (p.Path = "/" → p.WebRoot = "") →
      ∃ mux, router p = some mux ∧
        Serve p =
          if serveTLS p = true then
            ServeEntry.serving { Addr := p.FromAddr, Handler := RootHandler.direct mux }
              (ListenCall.ListenAndServeTLS p.CertFile p.KeyFile) Lifecycle.init
          else
            ServeEntry.serving { Addr := p.FromAddr, Handler := RootHandler.h2c mux }
              ListenCall.ListenAndServe Lifecycle.init) := by
  refine ⟨by simp [serveTLS], ?_⟩
  intro hpath hroot
  have hr : ∃ mux, router p = some mux := by
    by_cases hw : p.WebRoot = ""
    · simp [router, ServeMux.Handle, NewServeMux, ServeMux.lookup, hpath, hw]
    · have hs : ¬ p.Path = "/" := fun h => hw (hroot h)
      simp [router, ServeMux.Handle, NewServeMux, ServeMux.lookup, hpath, hw, hs]
  obtain ⟨mux, hm⟩ := hr
  refine ⟨mux, hm, ?_⟩
  by_cases ht : serveTLS p = true <;> simp [Serve, hm, rootHandler, listenCall, ht]

/-- C8, amended, at a TLS configuration, at one with only the key file set,
and at a cleartext one with a web root. -/
theorem Serve_mode_selection_witness :
    (serveTLS tlsServer = true ↔ tlsServer.KeyFile ≠ "" ∧ tlsServer.CertFile ≠ "") ∧
    serveTLS tlsServer = true ∧
    serveTLS { tlsServer with CertFile := "" } = false ∧
    (∃ mux, router tlsServer = some mux ∧
      Serve tlsServer =
        if serveTLS tlsServer = true then
          ServeEntry.serving { Addr := tlsServer.FromAddr, Handler := RootHandler.direct mux }
            (ListenCall.ListenAndServeTLS tlsServer.CertFile tlsServer.KeyFile) Lifecycle.init
        else
          ServeEntry.serving { Addr := tlsServer.FromAddr, Handler := RootHandler.h2c mux }
            ListenCall.ListenAndServe Lifecycle.init) ∧
    Serve tlsServer =
      ServeEntry.serving
        { Addr := ":8443",
          Handler := RootHandler.direct
            { m := [{ h := Handler.tunnel, pattern := "/tunnel" }], es := [], hosts := false } }
        (ListenCall.ListenAndServeTLS "server.crt" "server.key") Lifecycle.init ∧
    Serve plainServer =
      ServeEntry.serving
        { Addr := ":8080",
          Handler := RootHandler.h2c
            { m := [{ h := Handler.fileServer "/var/www", pattern := "/" },
                    { h := Handler.tunnel, pattern := "/tunnel" }],
              es := [{ h := Handler.fileServer "/var/www", pattern := "/" }],
              hosts := false } }
        ListenCall.ListenAndServe Lifecycle.init :=
  ⟨(Serve_mode_selection tlsServer).1, by decide, by decide,
    (Serve_mode_selection tlsServer).2 (by decide) (by decide), by decide, by decide⟩

/-- C9, counterexample: with the tunnel path `/tunnel/` the request path
`/tunnel/x`, which is not the tunnel path, is dispatched to the tunnel entry
point. -/
theorem subtree_path_reaches_tunnel :
    "/tunnel/x" ≠ subtreeServer.Path ∧
    (router subtreeServer).map (fun mux => mux.handler "example.com" "/tunnel/x") =
      some Handler.tunnel := by
  decide

/-- C9, amended: when the tunnel path begins with a slash and does not end in
one, the router is built, and a canonical request path that begins with a
slash is dispatched to the tunnel entry point exactly when it equals the
tunnel path; every other such path goes to the file server rooted at
`WebRoot` when `WebRoot` is non-empty and to the not-found handler when it is
empty. -/
theorem router_dispatch (p : Server) (host path : String)
    (hroot : namesHost p.Path = false) (hleaf : endsInSlash p.Path = false)
    (hpath : namesHost path = false) :
    ∃ mux, router p = some mux ∧
      mux.handler host path =
        if path = p.Path then Handler.tunnel
        else if p.WebRoot ≠ "" then Handler.fileServer p.WebRoot
        else Handler.notFound := by
  have h1 := namesHost_false_ne_empty hroot
  have h2 := endsInSlash_false_ne_slash hleaf
  have h3 : namesHost "/" = false := by decide
  have h4 : endsInSlash "/" = true := by decide
  by_cases hw : p.WebRoot = ""
  · refine ⟨{ m := [{ h := Handler.tunnel, pattern := p.Path }], es := [], hosts := false },
      ?_, ?_⟩
    · simp [router, ServeMux.Handle, NewServeMux, ServeMux.lookup, h1, hw, hroot, hleaf]
    · by_cases hp : path = p.Path
      · simp [ServeMux.handler, ServeMux.matchPath, ServeMux.lookup, hw, hp]
      · have hp2 : ¬ p.Path = path := fun h => hp h.symm
        simp [ServeMux.handler, ServeMux.matchPath, ServeMux.lookup, hw, hp, hp2]
  · refine ⟨{ m := [{ h := Handler.fileServer p.WebRoot, pattern := "/" },
                    { h := Handler.tunnel, pattern := p.Path }],
              es := [{ h := Handler.fileServer p.WebRoot, pattern := "/" }],
              hosts := false }, ?_, ?_⟩
    · simp [router, ServeMux.Handle, NewServeMux, ServeMux.lookup, h1, h2, hw, hroot, hleaf,
        h3, h4, appendSorted]
    · have hpre : List.isPrefixOf "/".data path.data = true := by
        simp only [namesHost, bne_eq_false_iff_eq] at hpath
        cases hd : path.data with
        | nil => simp [hd] at hpath
        | cons c cs =>
          simp [hd] at hpath
          subst hpath
          simp
      by_cases hp : path = p.Path
      · have h2' : ¬ "/" = p.Path := fun h => h2 h.symm
        simp [ServeMux.handler, ServeMux.matchPath, ServeMux.lookup, hw, h2', hp]
      · have hp2 : ¬ p.Path = path := fun h => hp h.symm
        by_cases hs : "/" = path
        · simp [ServeMux.handler, ServeMux.matchPath, ServeMux.lookup, hw, hp, hp2, hs]
        · simp [ServeMux.handler, ServeMux.matchPath, ServeMux.lookup, hw, hp, hp2, hs, hpre]

/-- C9, amended, at the tunnel path `/tunnel` with a web root: `/tunnel`
reaches the tunnel, `/index.html` the file server. -/
theorem router_dispatch_witness :
    (∃ mux, router plainServer = some mux ∧
      mux.handler "example.com" "/tunnel" =
        if "/tunnel" = plainServer.Path then Handler.tunnel
        else if plainServer.WebRoot ≠ "" then Handler.fileServer plainServer.WebRoot
        else Handler.notFound) ∧
    (∃ mux, router plainServer = some mux ∧
      mux.handler "example.com" "/index.html" =
        if "/index.html" = plainServer.Path then Handler.tunnel
        else if plainServer.WebRoot ≠ "" then Handler.fileServer plainServer.WebRoot
        else Handler.notFound) :=
  ⟨router_dispatch plainServer "example.com" "/tunnel" (by decide) (by decide) (by decide),
    router_dispatch plainServer "example.com" "/index.html" (by decide) (by decide)
      (by decide)⟩

end H2tun
